import Mathlib

/-!
Shallow embedding of the zoom-rtms-plugin core components, translated from
the Python sources:

* `Moveris`      — `src/moveris/client.py` (`MoverisClient.check_crops`)
* `Signaling`    — `src/rtms/signaling.py` (`connect`, `_keepalive_loop`)
* `Decoder`      — `src/rtms/decoder.py` (`H264Decoder._read_frames`)
* `FrameQuality` — `src/video/frame_selector.py`
* `Results`      — `src/results.py` (`InMemoryResultStore`)
* `Orch`         — `src/orchestrator.py` (`SessionOrchestrator`, `_Session`)

Machine floats of the source are modelled exactly over `ℚ`; exceptions are
modelled as explicit error values; await points vanish (each scripted
external interaction is an explicit input list).
-/

namespace Moveris

/-- Parsed 200-response of `POST /api/v1/fast-check-crops`
(`MoverisResponse` dataclass in `client.py`). -/
structure MoverisResponse where
  verdict : String
  score : ℚ
  real_score : ℚ
  fake_score : ℚ
  confidence : ℚ
deriving DecidableEq

/-- The JSON body of a successful response, as consumed by `_parse_response`. -/
structure ResponseBody where
  verdict : String
  score : ℚ
  real_score : ℚ
  fake_score : ℚ
  confidence : ℚ
deriving DecidableEq

/-- `_parse_response(data)` — field extraction from the response body. -/
def parseResponse (data : ResponseBody) : MoverisResponse :=
  ⟨data.verdict, data.score, data.real_score, data.fake_score, data.confidence⟩

/-- The observable outcome of one HTTP POST attempt inside `check_crops`:
a parsed 2xx response, an `httpx.HTTPStatusError` with its status code and
the optional `retry_after` field of the error body, or an
`httpx.TimeoutException` / `httpx.ConnectError`. -/
inductive HttpAttempt where
  | success (body : ResponseBody)
  | httpError (status : Nat) (retryAfter : Option ℚ)
  | transportError
deriving DecidableEq

/-- The exceptions `check_crops` can raise after its retry loop:
`MoverisError` for the non-retryable statuses, the re-raised
`httpx.HTTPStatusError`, or the re-raised transport exception. -/
inductive CheckError where
  | nonRetryable (status : Nat)
  | httpStatus (status : Nat)
  | transport
deriving DecidableEq

/-- Terminal result of the `check_crops` retry loop. -/
inductive CheckResult where
  | ok (response : MoverisResponse)
  | err (error : CheckError)
deriving DecidableEq

/-- Full observable behaviour of one `check_crops` run: its result, the
sequence of `asyncio.sleep` durations (seconds), and how many POST
attempts were made. -/
structure CheckOutcome where
  result : CheckResult
  waits : List ℚ
  attempts : Nat
deriving DecidableEq

/-- `_MAX_ATTEMPTS` in `client.py`. -/
def MAX_ATTEMPTS : Nat := 3

/-- `_RETRY_DELAYS` in `client.py` (seconds between attempts 1→2 and 2→3). -/
def RETRY_DELAYS : List ℚ := [1, 2]

/-- `REQUIRED_FRAMES` in `client.py`. -/
def REQUIRED_FRAMES : Nat := 10

/-- `status in (401, 402, 422)` — the non-retryable statuses. -/
def nonRetryableStatus (status : Nat) : Bool :=
  status = 401 || status = 402 || status = 422

/-- The `for attempt in range(_MAX_ATTEMPTS)` loop of `check_crops`, driven
by a script giving the outcome of each POST.  Returns `none` if the script
is shorter than the number of attempts the loop makes. -/
def runAttempts (script : List HttpAttempt) (attempt : Nat) (waits : List ℚ)
    (lastErr : Option CheckError) : Option CheckOutcome :=
  if h : attempt < MAX_ATTEMPTS then
    match script.get? attempt with
    | none => none
    | some (.success body) => some ⟨.ok (parseResponse body), waits, attempt + 1⟩
    | some (.httpError status retryAfter) =>
      if nonRetryableStatus status then
        -- raise MoverisError(...) from exc — immediate, no sleep
        some ⟨.err (.nonRetryable status), waits, attempt + 1⟩
      else if status = 429 then
        -- wait = body.get("retry_after", _RETRY_DELAYS[min(attempt, 1)]); sleep; continue
        let wait := retryAfter.getD (RETRY_DELAYS.getD (min attempt (RETRY_DELAYS.length - 1)) 0)
        runAttempts script (attempt + 1) (waits ++ [wait]) (some (.httpStatus status))
      else
        -- 5xx and other unexpected statuses: retryable
        if attempt < MAX_ATTEMPTS - 1 then
          runAttempts script (attempt + 1) (waits ++ [RETRY_DELAYS.getD attempt 0])
            (some (.httpStatus status))
        else
          runAttempts script (attempt + 1) waits (some (.httpStatus status))
    | some .transportError =>
      if attempt < MAX_ATTEMPTS - 1 then
        runAttempts script (attempt + 1) (waits ++ [RETRY_DELAYS.getD attempt 0])
          (some .transport)
      else
        runAttempts script (attempt + 1) waits (some .transport)
  else
    -- loop exhausted: `raise last_exc` (always set on this path)
    some ⟨.err (lastErr.getD .transport), waits, attempt⟩
termination_by MAX_ATTEMPTS - attempt
decreasing_by all_goals (simp [MAX_ATTEMPTS] at h ⊢; omega)

/-- Top-level `check_crops`: the length guard (`ValueError`) followed by the
retry loop. -/
inductive CheckCropsCall where
  | valueError
  | run (outcome : CheckOutcome)
deriving DecidableEq

/-- `MoverisClient.check_crops(images_b64)` against a scripted sequence of
HTTP outcomes. -/
def checkCrops (images_b64 : List String) (script : List HttpAttempt) :
    Option CheckCropsCall :=
  if images_b64.length ≠ REQUIRED_FRAMES then some .valueError
  else (runAttempts script 0 [] none).map .run

/-- Classification used to state exhaustion: the error a retryable failed
attempt leaves in `last_exc` (`none` for success / non-retryable). -/
def retryErr : HttpAttempt → Option CheckError
  | .httpError status _ =>
    if nonRetryableStatus status then none else some (.httpStatus status)
  | .transportError => some .transport
  | .success _ => none

end Moveris

namespace Signaling

/-- The observable outcome of trying one signaling URL inside
`RTMSSignalingClient.connect`: the connect step fails (connect error or
`_CONNECT_TIMEOUT`), the handshake receive step fails (timeout, connection
error, or a non-JSON reply), or a parsed JSON reply arrives with its
optional `msg_type`, optional `status_code`, and
`media_server.server_urls` list (`[]` when the key path is absent). -/
inductive UrlOutcome where
  | connectError
  | handshakeError
  | reply (msgType : Option Int) (statusCode : Option Int) (mediaUrls : List String)
deriving DecidableEq

/-- One iteration of the URL loop: `none` means the attempt failed and the
loop continues with the next URL; `some url` is the returned media URL.
Mirrors `_receive_handshake_resp`: `msg_type != 2` raises,
`status_code` defaulting to `-1` must equal `0`, an empty URL list raises,
else `media_urls[0]` is returned. -/
def tryUrl : UrlOutcome → Option String
  | .connectError => none
  | .handshakeError => none
  | .reply msgType statusCode mediaUrls =>
    if msgType ≠ some 2 then none
    else if statusCode.getD (-1) ≠ 0 then none
    else mediaUrls.head?

/-- `connect()` over the ordered `server_urls` list, each entry scripted
with its outcome.  `none` models `raise RTMSSignalingError(Exhausted …)`. -/
def connect : List UrlOutcome → Option String
  | [] => none
  | o :: rest =>
    match tryUrl o with
    | some url => some url
    | none => connect rest

/-- Number of URLs the loop actually tries (each at most once, in order). -/
def urlsTried : List UrlOutcome → Nat
  | [] => 0
  | o :: rest =>
    match tryUrl o with
    | some _ => 1
    | none => 1 + urlsTried rest

/-- One raw message delivered to `_keepalive_loop`: either text that
`json.loads` rejects, or a JSON object with its optional integer
`msg_type` and optional `timestamp` fields. -/
inductive WsMessage where
  | nonJson
  | json (msgType : Option Int) (timestamp : Option Int)
deriving DecidableEq

/-- The reply object `{"msg_type": 13, "timestamp": msg.get("timestamp")}`. -/
structure KeepAliveReply where
  msg_type : Int
  timestamp : Option Int
deriving DecidableEq

/-- Whether a message takes the `msg_type == 12` branch. -/
def isKeepAliveReq : WsMessage → Bool
  | .nonJson => false
  | .json msgType _ => msgType = some 12

/-- `_keepalive_loop`: the sequence of messages sent on the socket while
consuming the incoming message sequence. -/
def keepaliveSends : List WsMessage → List KeepAliveReply
  | [] => []
  | .nonJson :: rest => keepaliveSends rest
  | .json msgType timestamp :: rest =>
    if msgType = some 12 then ⟨13, timestamp⟩ :: keepaliveSends rest
    else keepaliveSends rest

end Signaling

namespace Decoder

/-- ASCII whitespace bytes stripped by Python `bytes.strip()` and used by
`bytes.split()` with no argument. -/
def isWs (b : Nat) : Bool :=
  b = 32 || b = 9 || b = 10 || b = 13 || b = 11 || b = 12

/-- `stream.readline()` over a byte list: the line including its trailing
newline (or everything up to EOF), and the remaining bytes. -/
def readLine : List Nat → List Nat × List Nat
  | [] => ([], [])
  | b :: bs =>
    if b = 10 then ([10], bs)
    else
      let r := readLine bs
      (b :: r.1, r.2)

/-- Python `bytes.strip()`. -/
def stripBytes (l : List Nat) : List Nat :=
  ((l.dropWhile isWs).reverse.dropWhile isWs).reverse

/-- Python `bytes.split()` with no argument: maximal runs of
non-whitespace bytes. -/
def splitWsAux : List Nat → List Nat → List (List Nat)
  | [], cur => if cur.isEmpty then [] else [cur.reverse]
  | b :: bs, cur =>
    if isWs b then
      if cur.isEmpty then splitWsAux bs []
      else cur.reverse :: splitWsAux bs []
    else splitWsAux bs (b :: cur)

def splitWs (l : List Nat) : List (List Nat) := splitWsAux l []

/-- Python `int(token)` on a whitespace-free token of decimal digits
(`none` when the token is empty or holds a non-digit, which the reader's
generic exception handler turns into loop exit). -/
def parseDigits : List Nat → Option Nat
  | l =>
    if l.isEmpty then none
    else if l.all (fun b => 48 ≤ b && b ≤ 57) then
      some (l.foldl (fun acc b => acc * 10 + (b - 48)) 0)
    else none

/-- `width, height = (int(x) for x in dim_line.split())` applied to the
stripped dimensions line: exactly two integer tokens, else an exception. -/
def parseDims (line : List Nat) : Option (Nat × Nat) :=
  match splitWs (stripBytes line) with
  | [w, h] =>
    match parseDigits w, parseDigits h with
    | some width, some height => some (width, height)
    | _, _ => none
  | _ => none

/-- `frame[..., ::-1]` — reverse the channel axis of the flat
`width*height*3` RGB payload, pixel triple by pixel triple. -/
def rgbToBgr : List Nat → List Nat
  | r :: g :: b :: rest => b :: g :: r :: rgbToBgr rest
  | l => l

/-- A decoded frame as enqueued by the reader: declared dimensions and the
BGR byte payload. -/
structure PPMFrame where
  width : Nat
  height : Nat
  bgr : List Nat
deriving DecidableEq

/-- `if not self._queue.full(): put_nowait(frame) else: drop` —
`asyncio.Queue.full()` is true iff `0 < maxsize ∧ qsize ≥ maxsize`. -/
def enqueueFrame (maxsize : Nat) (q : List PPMFrame) (frame : PPMFrame) :
    List PPMFrame :=
  if 0 < maxsize ∧ maxsize ≤ q.length then q else q ++ [frame]

/-- How `_read_frames` terminates: clean EOF at the magic position, an
`asyncio.IncompleteReadError` from `readexactly`, or any other exception
caught by the trailing handler (for example a dimensions-line parse
error).  All three return from the coroutine without re-raising. -/
inductive ReaderExit where
  | cleanEof
  | incompleteRead
  | readerError
deriving DecidableEq

/-- `H264Decoder._read_frames`: parse PPM units from the byte stream,
enqueue BGR frames, and return the final queue together with the way the
loop terminated. -/
def readFrames (maxsize : Nat) : List Nat → List PPMFrame → List PPMFrame × ReaderExit
  | [], q => (q, .cleanEof)
  | b :: bs, q =>
    let rest := (readLine (b :: bs)).2
    let magic := stripBytes (readLine (b :: bs)).1
    if magic.isEmpty then (q, .cleanEof)
    else if magic ≠ [80, 54] then
      -- unexpected PPM magic — log and continue
      readFrames maxsize rest q
    else
      let dimLine := (readLine rest).1
      let rest2 := (readLine rest).2
      match parseDims dimLine with
      | none => (q, .readerError)
      | some (width, height) =>
        -- max-value line is read and discarded
        let rest3 := (readLine rest2).2
        let nBytes := width * height * 3
        if rest3.length < nBytes then (q, .incompleteRead)
        else
          let frame : PPMFrame := ⟨width, height, rgbToBgr (rest3.take nBytes)⟩
          readFrames maxsize (rest3.drop nBytes) (enqueueFrame maxsize q frame)
termination_by l q => l.length
decreasing_by
  · have hle : ∀ l : List Nat, (readLine l).2.length ≤ l.length := by
      intro l
      induction l with
      | nil => simp [readLine]
      | cons c cs ih => by_cases hc : c = 10 <;> simp [readLine, hc] <;> omega
    by_cases hb : b = 10
    · simp [readLine, hb]
    · simpa [readLine, hb, Nat.lt_succ_iff] using hle bs
  · have hle : ∀ l : List Nat, (readLine l).2.length ≤ l.length := by
      intro l
      induction l with
      | nil => simp [readLine]
      | cons c cs ih => by_cases hc : c = 10 <;> simp [readLine, hc] <;> omega
    have hlt : (readLine (b :: bs)).2.length < (b :: bs).length := by
      by_cases hb : b = 10
      · simp [readLine, hb]
      · simpa [readLine, hb, Nat.lt_succ_iff] using hle bs
    have h2 := hle (readLine (b :: bs)).2
    have h3 := hle (readLine (readLine (b :: bs)).2).2
    simp only [List.length_drop]
    omega

/-- One serialized PPM unit as FFmpeg emits it — `b"P6\n"`, the
dimensions line, the max-value line, then the raw payload — followed by
the remaining stream. -/
def ppmUnit (dimLine maxLine payload rest : List Nat) : List Nat :=
  80 :: 54 :: 10 :: (dimLine ++ 10 :: (maxLine ++ 10 :: (payload ++ rest)))

end Decoder

namespace FrameQuality

/-- `_SHARPNESS_THRESHOLD` in `frame_selector.py`. -/
def SHARPNESS_THRESHOLD : ℚ := 50

/-- A BGR pixel (OpenCV channel order): `(blue, green, red)` bytes. -/
abbrev Pixel := Nat × Nat × Nat

/-- A BGR frame as rows of pixels. -/
abbrev Frame := List (List Pixel)

/-- `cv2.cvtColor(frame, cv2.COLOR_BGR2GRAY)` on 8-bit input — OpenCV's
fixed-point weights `R*4899 + G*9617 + B*1868` with rounding bias `8192`,
shifted right by 14. -/
def bgrToGray (p : Pixel) : Nat :=
  (p.1 * 1868 + p.2.1 * 9617 + p.2.2 * 4899 + 8192) / 16384

def toGray (frame : Frame) : List (List Nat) := frame.map (List.map bgrToGray)

/-- OpenCV `BORDER_REFLECT_101` index for a ±1 out-of-range offset
(`borderInterpolate` returns 0 when the extent is 1). -/
def reflectIdx (n : Nat) (i : Int) : Nat :=
  if n = 1 then 0
  else if i < 0 then (-i).toNat
  else if (n : Int) ≤ i then (2 * (n : Int) - 2 - i).toNat
  else i.toNat

/-- Grayscale sample with border reflection. -/
def grayAt (g : List (List Nat)) (y x : Int) : Nat :=
  (g.getD (reflectIdx g.length y) []).getD (reflectIdx (g.headD []).length x) 0

/-- `cv2.Laplacian(gray, cv2.CV_64F)` at one pixel — the default `ksize=1`
aperture `[[0,1,0],[1,-4,1],[0,1,0]]`. -/
def lapAt (g : List (List Nat)) (y x : Nat) : ℤ :=
  (grayAt g ((y : Int) - 1) x : ℤ) + (grayAt g ((y : Int) + 1) x : ℤ) +
    (grayAt g y ((x : Int) - 1) : ℤ) + (grayAt g y ((x : Int) + 1) : ℤ) -
    4 * (grayAt g y x : ℤ)

/-- All Laplacian responses of the image, row-major. -/
def lapValues (g : List (List Nat)) : List ℤ :=
  (List.range g.length).flatMap fun y =>
    (List.range (g.headD []).length).map fun x => lapAt g y x

/-- `numpy.ndarray.var()` — population variance `E[x²] − E[x]²`. -/
def listVar (l : List ℤ) : ℚ :=
  if l.length = 0 then 0
  else
    (l.map fun v => ((v : ℚ)) ^ 2).sum / (l.length : ℚ) -
      ((l.map fun v => ((v : ℚ))).sum / (l.length : ℚ)) ^ 2

/-- `compute_sharpness(frame)` — Laplacian variance of the grayscale frame. -/
def compute_sharpness (frame : Frame) : ℚ := listVar (lapValues (toGray frame))

/-- `is_quality_frame(frame)` — strict threshold comparison. -/
def is_quality_frame (frame : Frame) : Bool :=
  decide (SHARPNESS_THRESHOLD < compute_sharpness frame)

end FrameQuality

namespace Results

/-- `LivenessResult` dataclass in `results.py`, with the two wall-clock
fields carried as abstract tick values. -/
structure LivenessResult where
  meeting_uuid : String
  participant_id : String
  verdict : String
  score : ℚ
  real_score : ℚ
  fake_score : ℚ
  confidence : ℚ
  processing_ms : Nat
  frames_processed : Nat
  session_id : String
  completed_at : Nat
  error : Option String := none
deriving DecidableEq

/-- `SessionStatus` dataclass: the participant dict is an insertion-ordered
association list with unique keys. -/
structure SessionStatus where
  meeting_uuid : String
  state : String
  participants : List (String × LivenessResult) := []
  started_at : Nat
  completed_at : Option Nat := none
deriving DecidableEq

/-- `InMemoryResultStore._sessions` — an insertion-ordered dict. -/
abbrev Store := List (String × SessionStatus)

/-- `self._sessions.get(meeting_uuid)`. -/
def lookupSession (s : Store) (meeting_uuid : String) : Option SessionStatus :=
  (s.find? fun p => p.1 = meeting_uuid).map Prod.snd

/-- Dict-style in-place update of one key's value (identity when absent). -/
def updateSession (s : Store) (meeting_uuid : String)
    (f : SessionStatus → SessionStatus) : Store :=
  s.map fun p => if p.1 = meeting_uuid then (p.1, f p.2) else p

/-- `create_session`: insert a fresh `pending` record only when the key is
absent. -/
def create_session (s : Store) (meeting_uuid : String) (now : Nat) : Store :=
  if (lookupSession s meeting_uuid).isSome then s
  else s ++ [(meeting_uuid, ⟨meeting_uuid, "pending", [], now, none⟩)]

/-- `session.participants[participant_id] = result` — dict upsert. -/
def upsertResult (l : List (String × LivenessResult)) (participant_id : String)
    (result : LivenessResult) : List (String × LivenessResult) :=
  if l.any fun p => p.1 = participant_id then
    l.map fun p => if p.1 = participant_id then (p.1, result) else p
  else l ++ [(participant_id, result)]

/-- `set_result`: attach a result when the session record exists, silently
no-op otherwise. -/
def set_result (s : Store) (meeting_uuid participant_id : String)
    (result : LivenessResult) : Store :=
  updateSession s meeting_uuid fun st =>
    { st with participants := upsertResult st.participants participant_id result }

/-- `set_session_state`: overwrite the state when the record exists, and
stamp `completed_at` for the terminal states; silently no-op otherwise. -/
def set_session_state (s : Store) (meeting_uuid state : String) (now : Nat) :
    Store :=
  updateSession s meeting_uuid fun st =>
    { st with
      state := state
      completed_at :=
        if state = "complete" ∨ state = "error" then some now else st.completed_at }

/-- `cleanup_session`: drop the record if present. -/
def cleanup_session (s : Store) (meeting_uuid : String) : Store :=
  s.filter fun p => p.1 ≠ meeting_uuid

/-- Result lookup inside a record's participants dict. -/
def lookupResult (s : Store) (meeting_uuid participant_id : String) :
    Option LivenessResult :=
  (lookupSession s meeting_uuid).bind fun st =>
    (st.participants.find? fun p => p.1 = participant_id).map Prod.snd

end Results

namespace Orch

/-- `_MIN_CROPS` in `orchestrator.py`. -/
def MIN_CROPS : Nat := 10

/-- The mutable fields of `SessionOrchestrator` that the claims observe:
the session dict (modelled by its insertion-ordered key list — the mapped
`_Session` objects carry no further observable state here), the injected
result store, and `settings.max_concurrent_sessions`. -/
structure OrchState where
  sessions : List String
  store : Results.Store
  maxSessions : Nat
deriving DecidableEq

/-- `active_session_count`. -/
def active_session_count (s : OrchState) : Nat := s.sessions.length

/-- Outcome of `start_session`: the `TooManySessions` exception or the
post-state. -/
inductive StartResult where
  | tooManySessions
  | started (state : OrchState)
deriving DecidableEq

/-- `SessionOrchestrator.start_session` — capacity check first, then the
duplicate check, then store record creation + `processing` transition and
registration of the new `_Session`. -/
def start_session (s : OrchState) (meeting_uuid _rtms_stream_id _server_urls : String)
    (now : Nat) : StartResult :=
  if s.maxSessions ≤ s.sessions.length then .tooManySessions
  else if meeting_uuid ∈ s.sessions then .started s
  else
    let store1 := Results.create_session s.store meeting_uuid now
    let store2 := Results.set_session_state store1 meeting_uuid "processing" now
    .started { s with store := store2, sessions := s.sessions ++ [meeting_uuid] }

/-- `stop_session`: pop if present, close the session, mark `complete`. -/
def stop_session (s : OrchState) (meeting_uuid : String) (now : Nat) : OrchState :=
  if meeting_uuid ∈ s.sessions then
    { s with
      sessions := s.sessions.erase meeting_uuid
      store := Results.set_session_state s.store meeting_uuid "complete" now }
  else s

/-- `SessionOrchestrator.close()` — drain the dict, mark everything
`complete`. -/
def closeAll (s : OrchState) (now : Nat) : OrchState :=
  { s with
    sessions := []
    store := s.sessions.foldl
      (fun st m => Results.set_session_state st m "complete" now) s.store }

/-- A sequence of `start_session` calls, stopping at the first
`TooManySessions`. -/
def startMany : OrchState → List String → Nat → Option OrchState
  | s, [], _ => some s
  | s, m :: rest, now =>
    match start_session s m "" "" now with
    | .tooManySessions => none
    | .started s' => startMany s' rest now

/-- What one `queue.get` pull yields in `_process_participant`:
`asyncio.TimeoutError` after `_FRAME_TIMEOUT_S`, the `None` sentinel, or a
frame. -/
inductive PullEvent (α : Type) where
  | timeout
  | sentinel
  | frame (a : α)

/-- The crop-collection loop of `_process_participant`, parametrised by the
quality filter and the face-detector capability.  Returns
`(frames_seen, crops)` at loop exit, or `none` if the scripted event list
runs out while the loop still wants a frame. -/
def collectCrops {α : Type} (quality : α → Bool) (detect : α → Option String) :
    List (PullEvent α) → Nat → List String → Option (Nat × List String)
  | [], frames_seen, crops =>
    if MIN_CROPS ≤ crops.length then some (frames_seen, crops) else none
  | ev :: rest, frames_seen, crops =>
    if MIN_CROPS ≤ crops.length then some (frames_seen, crops)
    else
      match ev with
      | .timeout => some (frames_seen, crops)
      | .sentinel => some (frames_seen, crops)
      | .frame a =>
        if quality a then
          match detect a with
          | some crop => collectCrops quality detect rest (frames_seen + 1) (crops ++ [crop])
          | none => collectCrops quality detect rest (frames_seen + 1) crops
        else collectCrops quality detect rest (frames_seen + 1) crops

/-- Outcome of the (single) Moveris call, when one is made. -/
inductive ApiOutcome where
  | success (response : Moveris.MoverisResponse)
  | apiError (message : String)
deriving DecidableEq

/-- The `LivenessResult` literal built by `_store_error`. -/
def mkErrorResult (meeting_uuid participant_id error : String)
    (frames_seen processing_ms now : Nat) : Results.LivenessResult :=
  { meeting_uuid := meeting_uuid
    participant_id := participant_id
    verdict := "error"
    score := 0
    real_score := 0
    fake_score := 0
    confidence := 0
    processing_ms := processing_ms
    frames_processed := frames_seen
    session_id := ""
    completed_at := now
    error := some error }

/-- The `LivenessResult` literal built by `_call_moveris` on API success. -/
def mkSuccessResult (meeting_uuid participant_id : String)
    (response : Moveris.MoverisResponse) (frames_seen processing_ms now : Nat) :
    Results.LivenessResult :=
  { meeting_uuid := meeting_uuid
    participant_id := participant_id
    verdict := response.verdict
    score := response.score
    real_score := response.real_score
    fake_score := response.fake_score
    confidence := response.confidence
    processing_ms := processing_ms
    frames_processed := frames_seen
    session_id := ""
    completed_at := now
    error := none }

/-- Observable behaviour of one `_process_participant` run: the result it
stores via `set_result`, and whether `check_crops` was invoked. -/
structure PipelineRun where
  stored : Results.LivenessResult
  apiCalled : Bool
deriving DecidableEq

/-- `_Session._process_participant` against scripted queue pulls and a
scripted API outcome (consulted only when the batch fills). -/
def processParticipant {α : Type} (quality : α → Bool) (detect : α → Option String)
    (meeting_uuid participant_id : String) (events : List (PullEvent α))
    (api : ApiOutcome) (processing_ms now : Nat) : Option PipelineRun :=
  match collectCrops quality detect events 0 [] with
  | none => none
  | some (frames_seen, crops) =>
    if crops.length < MIN_CROPS then
      some ⟨mkErrorResult meeting_uuid participant_id "insufficient_frames"
              frames_seen processing_ms now, false⟩
    else
      match api with
      | .success r =>
        some ⟨mkSuccessResult meeting_uuid participant_id r frames_seen
                processing_ms now, true⟩
      | .apiError msg =>
        some ⟨mkErrorResult meeting_uuid participant_id msg frames_seen
                processing_ms now, true⟩

/-- Operations whose interleavings generate the reachable orchestrator +
store states: the orchestrator entry points and a pipeline's
`set_result`. -/
inductive OrchOp where
  | start (meeting_uuid : String)
  | stop (meeting_uuid : String)
  | shutdown
  | storeResult (meeting_uuid participant_id : String) (result : Results.LivenessResult)
deriving DecidableEq

/-- One operation applied to the state (a raised `TooManySessions` leaves
the state as it was). -/
def applyOp (s : OrchState) : OrchOp × Nat → OrchState
  | (.start m, now) =>
    match start_session s m "" "" now with
    | .tooManySessions => s
    | .started s' => s'
  | (.stop m, now) => stop_session s m now
  | (.shutdown, now) => closeAll s now
  | (.storeResult m pid r, _) => { s with store := Results.set_result s.store m pid r }

/-- A timed operation sequence applied in order. -/
def execOps (s : OrchState) (ops : List (OrchOp × Nat)) : OrchState :=
  ops.foldl applyOp s

/-- The lifecycle state recorded for a meeting, if any. -/
def stateOf (s : OrchState) (meeting_uuid : String) : Option String :=
  (Results.lookupSession s.store meeting_uuid).map Results.SessionStatus.state

end Orch

namespace Demo

/-- A 1×8 BGR frame with equal channels; its Laplacian variance is
exactly the quality threshold. -/
def qFrame50 : FrameQuality.Frame :=
  [[0, 0, 10, 20, 20, 10, 0, 0].map fun v => (v, v, v)]

/-- A generic stored result used to exercise the result store. -/
def demoResult : Results.LivenessResult :=
  Orch.mkErrorResult "mtg" "p1" "boom" 4 120 7

/-- A store holding exactly one `processing` record. -/
def demoStore : Results.Store :=
  [("mtg", ⟨"mtg", "processing", [], 0, none⟩)]

/-- An orchestrator at its capacity of 1 with meeting `"mtg"` active. -/
def orchAtCap : Orch.OrchState :=
  ⟨["mtg"], demoStore, 1⟩

/-- An orchestrator below capacity with meeting `"mtg"` active. -/
def orchBelowCap : Orch.OrchState :=
  ⟨["mtg"], demoStore, 2⟩

/-- An empty orchestrator with capacity 1. -/
def orchEmpty : Orch.OrchState := ⟨[], [], 1⟩

/-- A parsed Moveris success body. -/
def demoBody : Moveris.ResponseBody := ⟨"live", 90, 9 / 10, 1 / 10, 8 / 10⟩

/-- The orchestrator state after `"mtg"` was started and then stopped:
no active session, a `complete` status record. -/
def orchStopped : Orch.OrchState :=
  ⟨[], [("mtg", ⟨"mtg", "complete", [], 0, some 1⟩)], 1⟩

/-- `demoStore` with one stored result attached. -/
def demoStoreR : Results.Store :=
  Results.set_result demoStore "mtg" "p1" demoResult

/-- Ten encoded crops, the batch size `fast-check-crops` requires. -/
def tenCrops : List String := List.replicate 10 "crop"

end Demo

/-! ## Store lemmas -/

namespace Results

theorem lookupSession_updateSession (s : Store) (k : String)
    (f : SessionStatus → SessionStatus) (m : String) :
    lookupSession (updateSession s k f) m =
      if k = m then (lookupSession s m).map f else lookupSession s m := by
  induction s with
  | nil => by_cases h : k = m <;> simp [lookupSession, updateSession, h]
  | cons p rest ih =>
    obtain ⟨a, st⟩ := p
    by_cases ham : a = m
    · subst ham
      by_cases hak : a = k
      · subst hak
        simp [lookupSession, updateSession, List.find?_cons]
      · have hk : ¬(k = a) := fun h => hak h.symm
        simp [lookupSession, updateSession, List.find?_cons, hak, hk]
    · by_cases hak : a = k
      · subst hak
        simpa [lookupSession, updateSession, List.find?_cons, ham] using ih
      · simpa [lookupSession, updateSession, List.find?_cons, ham, hak] using ih

theorem updateSession_absent (s : Store) (m : String)
    (f : SessionStatus → SessionStatus) (h : lookupSession s m = none) :
    updateSession s m f = s := by
  induction s with
  | nil => simp [updateSession]
  | cons p rest ih =>
    obtain ⟨a, st⟩ := p
    by_cases ham : a = m
    · simp [lookupSession, List.find?_cons, ham] at h
    · have h' : lookupSession rest m = none := by
        simpa [lookupSession, List.find?_cons, ham] using h
      have h2 := ih h'
      simp only [updateSession, List.map_cons] at h2 ⊢
      simp [ham, h2]

theorem lookupSession_append_single (s : Store) (k : String) (st : SessionStatus)
    (m : String) (h : k ≠ m) :
    lookupSession (s ++ [(k, st)]) m = lookupSession s m := by
  induction s with
  | nil => simp [lookupSession, List.find?_cons, h]
  | cons p rest ih =>
    obtain ⟨a, st'⟩ := p
    by_cases ham : a = m <;> simp_all [lookupSession, List.find?_cons]

end Results

/-! ## C9 — the result store never creates a status record implicitly -/

/-- C9: `set_result` and `set_session_state` for a meeting id that
`create_session` never saw leave the store completely unchanged (and,
being total functions, raise nothing); `create_session` for an existing
meeting id leaves the whole store — and so that record's state,
participants, and `started_at` — unchanged. -/
theorem Results.store_no_implicit_create :
    (∀ (s : Results.Store) (m pid : String) (r : Results.LivenessResult),
        Results.lookupSession s m = none → Results.set_result s m pid r = s) ∧
    (∀ (s : Results.Store) (m state : String) (now : Nat),
        Results.lookupSession s m = none →
          Results.set_session_state s m state now = s) ∧
    (∀ (s : Results.Store) (m : String) (now : Nat),
        (Results.lookupSession s m).isSome → Results.create_session s m now = s) := by
  refine ⟨?_, ?_, ?_⟩
  · intro s m pid r h
    exact Results.updateSession_absent s m _ h
  · intro s m state now h
    exact Results.updateSession_absent s m _ h
  · intro s m now h
    simp [Results.create_session, h]

/-- Concrete run of C9 on a one-record store and the absent key `"nope"`. -/
theorem Results.store_no_implicit_create_witness :
    Results.set_result Demo.demoStore "nope" "p1" Demo.demoResult = Demo.demoStore ∧
    Results.set_session_state Demo.demoStore "nope" "error" 9 = Demo.demoStore ∧
    Results.create_session Demo.demoStore "mtg" 9 = Demo.demoStore :=
  ⟨Results.store_no_implicit_create.1 Demo.demoStore "nope" "p1" Demo.demoResult (by decide),
   Results.store_no_implicit_create.2.1 Demo.demoStore "nope" "error" 9 (by decide),
   Results.store_no_implicit_create.2.2 Demo.demoStore "mtg" 9 (by decide)⟩

/-! ## C10 — quality filter is a strict threshold comparison -/

/-- C10: `is_quality_frame` returns `true` iff the frame's
Laplacian-variance sharpness is strictly greater than the fixed threshold
`50.0`; a frame whose sharpness is exactly `50.0` is rejected. -/
theorem FrameQuality.quality_threshold_strict (frame : FrameQuality.Frame) :
    (FrameQuality.is_quality_frame frame = true ↔
      50 < FrameQuality.compute_sharpness frame) ∧
    (FrameQuality.compute_sharpness frame = 50 →
      FrameQuality.is_quality_frame frame = false) := by
  constructor
  · simp [FrameQuality.is_quality_frame, FrameQuality.SHARPNESS_THRESHOLD]
  · intro h
    simp [FrameQuality.is_quality_frame, FrameQuality.SHARPNESS_THRESHOLD, h]

/-- A concrete frame whose sharpness is exactly 50 and which the filter
rejects. -/
theorem FrameQuality.quality_threshold_strict_witness :
    FrameQuality.compute_sharpness Demo.qFrame50 = 50 ∧
    FrameQuality.is_quality_frame Demo.qFrame50 = false := by
  have h : FrameQuality.compute_sharpness Demo.qFrame50 = 50 := by
    have h1 : FrameQuality.lapValues (FrameQuality.toGray Demo.qFrame50) =
        [0, 10, 0, -10, -10, 0, 10, 0] := by decide
    rw [FrameQuality.compute_sharpness, h1]
    norm_num [FrameQuality.listVar]
  exact ⟨h, (FrameQuality.quality_threshold_strict Demo.qFrame50).2 h⟩

/-! ## C7 — keepalive echoes exactly one type-13 per type-12 -/

/-- C7: over any received message sequence, the keepalive loop sends
exactly one type-13 reply per type-12 message, carrying that message's
timestamp field unchanged, and sends nothing for non-type-12 or non-JSON
messages; every sent reply has `msg_type` 13 and the reply count equals
the type-12 count. -/
theorem Signaling.keepalive_echo_spec :
    (∀ (msgs : List Signaling.WsMessage) (ts : Option Int),
        Signaling.keepaliveSends (msgs ++ [.json (some 12) ts]) =
          Signaling.keepaliveSends msgs ++ [⟨13, ts⟩]) ∧
    (∀ (msgs : List Signaling.WsMessage) (m : Signaling.WsMessage),
        Signaling.isKeepAliveReq m = false →
          Signaling.keepaliveSends (msgs ++ [m]) = Signaling.keepaliveSends msgs) ∧
    (∀ msgs : List Signaling.WsMessage,
        (Signaling.keepaliveSends msgs).length =
          msgs.countP (fun m => Signaling.isKeepAliveReq m)) ∧
    (∀ (msgs : List Signaling.WsMessage) (r : Signaling.KeepAliveReply),
        r ∈ Signaling.keepaliveSends msgs → r.msg_type = 13) := by
  refine ⟨?_, ?_, ?_, ?_⟩
  · intro msgs ts
    induction msgs with
    | nil => simp [Signaling.keepaliveSends]
    | cons m rest ih =>
      cases m with
      | nonJson => simpa [Signaling.keepaliveSends] using ih
      | json mt ts' =>
        by_cases hmt : mt = some 12 <;>
          simp [Signaling.keepaliveSends, hmt, ih]
  · intro msgs m hm
    induction msgs with
    | nil =>
      cases m with
      | nonJson => simp [Signaling.keepaliveSends]
      | json mt ts' =>
        by_cases hmt : mt = some 12
        · subst hmt
          simp [Signaling.isKeepAliveReq] at hm
        · simp [Signaling.keepaliveSends, hmt]
    | cons m' rest ih =>
      cases m' with
      | nonJson => simpa [Signaling.keepaliveSends] using ih
      | json mt ts' =>
        by_cases hmt : mt = some 12 <;>
          simp [Signaling.keepaliveSends, hmt, ih]
  · intro msgs
    induction msgs with
    | nil => simp [Signaling.keepaliveSends]
    | cons m rest ih =>
      cases m with
      | nonJson => simpa [Signaling.keepaliveSends, Signaling.isKeepAliveReq] using ih
      | json mt ts' =>
        by_cases hmt : mt = some 12
        · subst hmt
          simp [Signaling.keepaliveSends, Signaling.isKeepAliveReq, ih]
        · have hreq : Signaling.isKeepAliveReq (.json mt ts') = false := by
            simp [Signaling.isKeepAliveReq, hmt]
          simp [Signaling.keepaliveSends, hmt, hreq, ih]
  · intro msgs r hr
    induction msgs with
    | nil => simp [Signaling.keepaliveSends] at hr
    | cons m rest ih =>
      cases m with
      | nonJson =>
        simp only [Signaling.keepaliveSends] at hr
        exact ih hr
      | json mt ts' =>
        by_cases hmt : mt = some 12
        · subst hmt
          simp only [Signaling.keepaliveSends, if_pos rfl, List.mem_cons] at hr
          cases hr with
          | head => rfl
          | tail _ hmem => exact ih hmem
        · simp only [Signaling.keepaliveSends, if_neg hmt] at hr
          exact ih hr

/-- Concrete run of C7: two interleaved keepalive requests each get one
echo with the same timestamp; the other messages get none. -/
theorem Signaling.keepalive_echo_spec_witness :
    Signaling.keepaliveSends
        [.json (some 12) (some 7), .nonJson, .json (some 5) (some 3)] =
      [⟨13, some 7⟩] ∧
    Signaling.keepaliveSends
        ([.json (some 12) (some 7), .nonJson, .json (some 5) (some 3)] ++
          [.json (some 12) none]) =
      [⟨13, some 7⟩, ⟨13, none⟩] ∧
    Signaling.keepaliveSends
        ([.json (some 12) (some 7), .nonJson] ++ [.json (some 5) (some 3)]) =
      [⟨13, some 7⟩] := by
  have h1 : Signaling.keepaliveSends
      [.json (some 12) (some 7), .nonJson, .json (some 5) (some 3)] =
        [⟨13, some 7⟩] := by decide
  refine ⟨h1, ?_, ?_⟩
  · rw [Signaling.keepalive_echo_spec.1
      [.json (some 12) (some 7), .nonJson, .json (some 5) (some 3)] none, h1]
    rfl
  · rw [Signaling.keepalive_echo_spec.2.1
      [.json (some 12) (some 7), .nonJson] (.json (some 5) (some 3)) (by decide)]
    decide

/-! ## C5 — signaling URL fallback -/

/-- C5: `connect()` tries the candidate URLs strictly in order, at most
once each; connect failures, handshake failures, non-type-2 replies,
non-zero status codes, and empty media-URL lists all cause fallback; the
exhausted error occurs exactly when every URL fails (including the empty
list); the first successful handshake returns the first media-server URL
and determines the number of URLs tried. -/
theorem Signaling.connect_fallback_spec :
    (∀ outs : List Signaling.UrlOutcome,
        Signaling.connect outs = none ↔ ∀ o ∈ outs, Signaling.tryUrl o = none) ∧
    (∀ (outs : List Signaling.UrlOutcome) (i : Nat) (u : String) (h : i < outs.length),
        (∀ j, (hj : j < i) → Signaling.tryUrl (outs.get ⟨j, Nat.lt_trans hj h⟩) = none) →
        Signaling.tryUrl (outs.get ⟨i, h⟩) = some u →
        Signaling.connect outs = some u ∧ Signaling.urlsTried outs = i + 1) ∧
    (∀ outs : List Signaling.UrlOutcome, Signaling.urlsTried outs ≤ outs.length) ∧
    (Signaling.tryUrl .connectError = none ∧
     Signaling.tryUrl .handshakeError = none ∧
     (∀ (mt sc : Option Int) (urls : List String),
        mt ≠ some 2 → Signaling.tryUrl (.reply mt sc urls) = none) ∧
     (∀ (mt sc : Option Int) (urls : List String),
        sc.getD (-1) ≠ 0 → Signaling.tryUrl (.reply mt sc urls) = none) ∧
     (∀ sc : Option Int, Signaling.tryUrl (.reply (some 2) sc []) = none) ∧
     (∀ (sc : Option Int) (u : String) (us : List String),
        sc.getD (-1) = 0 → Signaling.tryUrl (.reply (some 2) sc (u :: us)) = some u)) := by
  refine ⟨?_, ?_, ?_, rfl, rfl, ?_, ?_, ?_, ?_⟩
  · intro outs
    induction outs with
    | nil => simp [Signaling.connect]
    | cons o rest ih =>
      cases h : Signaling.tryUrl o with
      | some u => simp [Signaling.connect, h]
      | none => simp [Signaling.connect, h, ih]
  · intro outs
    induction outs with
    | nil =>
      intro i u h
      exact absurd h (by simp)
    | cons o rest ih =>
      intro i u h hprev htry
      cases i with
      | zero =>
        simp only [List.get] at htry
        simp [Signaling.connect, Signaling.urlsTried, htry]
      | succ j =>
        have h0 : Signaling.tryUrl o = none := hprev 0 (Nat.succ_pos j)
        have hrest : j < rest.length := by
          simpa [Nat.succ_lt_succ_iff] using h
        have hprev' : ∀ j', (hj' : j' < j) →
            Signaling.tryUrl (rest.get ⟨j', Nat.lt_trans hj' hrest⟩) = none := by
          intro j' hj'
          exact hprev (j' + 1) (Nat.succ_lt_succ hj')
        have htry' : Signaling.tryUrl (rest.get ⟨j, hrest⟩) = some u := htry
        obtain ⟨hc, ht⟩ := ih j u hrest hprev' htry'
        refine ⟨?_, ?_⟩
        · simp [Signaling.connect, h0, hc]
        · simp only [Signaling.urlsTried, h0, ht]
          omega
  · intro outs
    induction outs with
    | nil => simp [Signaling.urlsTried]
    | cons o rest ih =>
      cases h : Signaling.tryUrl o with
      | some u => simp [Signaling.urlsTried, h]
      | none =>
        simp only [Signaling.urlsTried, h, List.length_cons]
        omega
  · intro mt sc urls hmt
    simp [Signaling.tryUrl, hmt]
  · intro mt sc urls hsc
    by_cases hmt : mt = some 2 <;> simp [Signaling.tryUrl, hmt, hsc]
  · intro sc
    by_cases hsc : (sc.getD (-1) : Int) = 0 <;> simp [Signaling.tryUrl, hsc]
  · intro sc u us hsc
    simp [Signaling.tryUrl, hsc]

/-- Concrete run of C5: first URL unreachable, second URL handshake
succeeds — `connect` returns the second URL's first media URL after two
tries. -/
theorem Signaling.connect_fallback_spec_witness :
    Signaling.connect
        [.connectError, .reply (some 2) (some 0) ["wss://media", "wss://alt"]] =
      some "wss://media" ∧
    Signaling.urlsTried
        [.connectError, .reply (some 2) (some 0) ["wss://media", "wss://alt"]] = 2 :=
  Signaling.connect_fallback_spec.2.1
    [.connectError, .reply (some 2) (some 0) ["wss://media", "wss://alt"]]
    1 "wss://media" (by decide)
    (fun j hj => by
      have hj0 : j = 0 := by omega
      subst hj0
      rfl)
    (by decide)

/-! ## C3 — capacity check, and C1 — duplicate start -/

theorem Orch.startMany_disjoint (ids : List String) :
    ∀ (s : Orch.OrchState) (now : Nat),
      s.sessions.length + ids.length ≤ s.maxSessions →
      (∀ m ∈ ids, m ∉ s.sessions) →
      ids.Nodup →
      ∃ s', Orch.startMany s ids now = some s' ∧
        s'.sessions = s.sessions ++ ids ∧ s'.maxSessions = s.maxSessions := by
  induction ids with
  | nil =>
    intro s now _ _ _
    exact ⟨s, rfl, by simp, rfl⟩
  | cons m rest ih =>
    intro s now hcap hnotin hnodup
    have hm : m ∉ s.sessions := hnotin m (by simp)
    have hlt : s.sessions.length < s.maxSessions := by
      simp only [List.length_cons] at hcap
      omega
    have hstep : Orch.startMany s (m :: rest) now =
        Orch.startMany
          { s with
            store := Results.set_session_state
              (Results.create_session s.store m now) m "processing" now
            sessions := s.sessions ++ [m] } rest now := by
      simp [Orch.startMany, Orch.start_session, Nat.not_le.mpr hlt, hm]
    rw [hstep]
    obtain ⟨s', hrun, hsess, hmax⟩ := ih
      { s with
        store := Results.set_session_state
          (Results.create_session s.store m now) m "processing" now
        sessions := s.sessions ++ [m] } now
      (by show (s.sessions ++ [m]).length + rest.length ≤ s.maxSessions
          simp only [List.length_cons] at hcap
          simp only [List.length_append, List.length_cons, List.length_nil]
          omega)
      (by intro m' hm'
          show m' ∉ s.sessions ++ [m]
          simp only [List.mem_append, List.mem_singleton]
          rintro (h2 | h2)
          · exact hnotin m' (List.mem_cons_of_mem m hm') h2
          · subst h2
            exact (List.nodup_cons.mp hnodup).1 hm')
      (List.nodup_cons.mp hnodup).2
    exact ⟨s', hrun, by simp [hsess], hmax⟩

/-- C3: `start_session` raises `TooManySessions` exactly when the active
count is at or above the configured maximum (the capacity check precedes
every mutation, so a raise leaves the state untouched); a successful start
never pushes the count past the maximum; and from an empty orchestrator,
N unique ids with N ≤ max all start successfully, leaving
`active_session_count = N ≤ max`. -/
theorem Orch.start_session_capacity_spec :
    (∀ (s : Orch.OrchState) (m sid urls : String) (now : Nat),
        Orch.start_session s m sid urls now = .tooManySessions ↔
          s.maxSessions ≤ s.sessions.length) ∧
    (∀ (s : Orch.OrchState) (m sid urls : String) (now : Nat) (s' : Orch.OrchState),
        Orch.start_session s m sid urls now = .started s' →
        s.sessions.length ≤ s.maxSessions →
        s'.sessions.length ≤ s.maxSessions) ∧
    (∀ (ids : List String) (maxS now : Nat),
        ids.Nodup → ids.length ≤ maxS →
        ∃ s', Orch.startMany ⟨[], [], maxS⟩ ids now = some s' ∧
          Orch.active_session_count s' = ids.length ∧
          Orch.active_session_count s' ≤ maxS) := by
  refine ⟨?_, ?_, ?_⟩
  · intro s m sid urls now
    by_cases hcap : s.maxSessions ≤ s.sessions.length
    · simp [Orch.start_session, hcap]
    · by_cases hm : m ∈ s.sessions <;> simp [Orch.start_session, hcap, hm]
  · intro s m sid urls now s' hstart hle
    by_cases hcap : s.maxSessions ≤ s.sessions.length
    · simp [Orch.start_session, hcap] at hstart
    · by_cases hm : m ∈ s.sessions
      · simp [Orch.start_session, hcap, hm] at hstart
        subst hstart
        exact hle
      · simp [Orch.start_session, hcap, hm] at hstart
        subst hstart
        simp only [List.length_append, List.length_cons, List.length_nil]
        omega
  · intro ids maxS now hnodup hlen
    obtain ⟨s', hrun, hsess, _⟩ :=
      Orch.startMany_disjoint ids ⟨[], [], maxS⟩ now (by simpa using hlen)
        (by simp) hnodup
    refine ⟨s', hrun, ?_, ?_⟩
    · simp [Orch.active_session_count, hsess]
    · simp [Orch.active_session_count, hsess]
      exact hlen

/-- Concrete run of C3: two unique ids fill a capacity-2 orchestrator;
a third start on the full state raises; a successful start stays within
the cap. -/
theorem Orch.start_session_capacity_spec_witness :
    (Orch.start_session Demo.orchAtCap "other" "s" "u" 5 = .tooManySessions ↔
      Demo.orchAtCap.maxSessions ≤ Demo.orchAtCap.sessions.length) ∧
    (∃ s', Orch.startMany ⟨[], [], 2⟩ ["a", "b"] 0 = some s' ∧
      Orch.active_session_count s' = 2 ∧ Orch.active_session_count s' ≤ 2) :=
  ⟨Orch.start_session_capacity_spec.1 Demo.orchAtCap "other" "s" "u" 5,
   by
    obtain ⟨s', h1, h2, h3⟩ :=
      Orch.start_session_capacity_spec.2.2 ["a", "b"] 2 0 (by decide) (by decide)
    exact ⟨s', h1, h2, h3⟩⟩

/-- C1 counterexample: from an empty orchestrator with capacity 1,
starting `"mtg"` succeeds and fills the orchestrator; a second
`start_session` for the already-active `"mtg"` then raises
`TooManySessions` instead of returning success, because the capacity
check runs before the duplicate check. -/
theorem Orch.duplicate_start_at_capacity_raises :
    Orch.start_session Demo.orchEmpty "mtg" "s" "u" 0 = .started Demo.orchAtCap ∧
    "mtg" ∈ Demo.orchAtCap.sessions ∧
    Orch.active_session_count Demo.orchAtCap = Demo.orchAtCap.maxSessions ∧
    Orch.start_session Demo.orchAtCap "mtg" "s" "u" 1 = .tooManySessions := by
  refine ⟨by decide, by decide, by decide, by decide⟩

/-- C1 as amended: when the meeting already has an active session and the
active count is strictly below the configured maximum, a duplicate
`start_session` returns success with the state unchanged — no second
`_Session`, unchanged `active_session_count`, and no result-store
mutation. -/
theorem Orch.duplicate_start_below_capacity_idempotent
    (s : Orch.OrchState) (m sid urls : String) (now : Nat)
    (hm : m ∈ s.sessions) (hcap : s.sessions.length < s.maxSessions) :
    Orch.start_session s m sid urls now = .started s := by
  simp [Orch.start_session, Nat.not_le.mpr hcap, hm]

/-- Concrete run of the amended C1 on a below-capacity orchestrator. -/
theorem Orch.duplicate_start_below_capacity_idempotent_witness :
    Orch.start_session Demo.orchBelowCap "mtg" "s" "u" 3 = .started Demo.orchBelowCap :=
  Orch.duplicate_start_below_capacity_idempotent Demo.orchBelowCap "mtg" "s" "u" 3
    (by decide) (by decide)

/-! ## C2 — status record before results; state monotonicity -/

theorem Results.lookup_state_set_session_state (store : Results.Store)
    (k v : String) (now : Nat) (m : String) :
    (Results.lookupSession (Results.set_session_state store k v now) m).map
        Results.SessionStatus.state =
      if k = m then (Results.lookupSession store m).map (fun _ => v)
      else (Results.lookupSession store m).map Results.SessionStatus.state := by
  rw [Results.set_session_state, Results.lookupSession_updateSession]
  by_cases h : k = m <;>
    cases Results.lookupSession store m <;> simp [h]

theorem Results.lookup_state_set_result (store : Results.Store)
    (k pid : String) (r : Results.LivenessResult) (m : String) :
    (Results.lookupSession (Results.set_result store k pid r) m).map
        Results.SessionStatus.state =
      (Results.lookupSession store m).map Results.SessionStatus.state := by
  rw [Results.set_result, Results.lookupSession_updateSession]
  by_cases h : k = m <;>
    cases Results.lookupSession store m <;> simp [h]

theorem Results.lookup_create_session_other (store : Results.Store)
    (k : String) (now : Nat) (m : String) (h : k ≠ m) :
    Results.lookupSession (Results.create_session store k now) m =
      Results.lookupSession store m := by
  rw [Results.create_session]
  by_cases hp : (Results.lookupSession store k).isSome
  · simp [hp]
  · simp only [hp, if_false]
    exact Results.lookupSession_append_single store k _ m h

theorem Results.fold_complete_preserves (ms : List String) :
    ∀ (store : Results.Store) (m : String) (now : Nat),
      (Results.lookupSession store m).map Results.SessionStatus.state =
          some "complete" →
      (Results.lookupSession
          (ms.foldl (fun st m' => Results.set_session_state st m' "complete" now)
            store) m).map Results.SessionStatus.state = some "complete" := by
  induction ms with
  | nil => intro store m now h; exact h
  | cons m' rest ih =>
    intro store m now h
    simp only [List.foldl_cons]
    apply ih
    rw [Results.lookup_state_set_session_state]
    by_cases hm : m' = m
    · cases hlk : Results.lookupSession store m
      · rw [hlk] at h; simp at h
      · simp [hm, hlk]
    · simpa [hm] using h

/-- C2 counterexample: in the reachable operation sequence
start → stop → start for the same meeting, the status record regresses
from `complete` back to `processing`, because the restart overwrites the
state unconditionally. -/
theorem Orch.state_regresses_on_restart :
    Orch.stateOf (Orch.execOps Demo.orchEmpty
        [(.start "mtg", 0), (.stop "mtg", 1)]) "mtg" = some "complete" ∧
    Orch.stateOf (Orch.execOps Demo.orchEmpty
        [(.start "mtg", 0), (.stop "mtg", 1), (.start "mtg", 2)]) "mtg" =
      some "processing" := by
  refine ⟨by decide, by decide⟩

/-- C2 as amended: a Verification Result can only ever sit inside an
existing Session Status record (`set_result` for a missing record is a
no-op, and a present result implies a present record), and the lifecycle
state never regresses from `complete` — except through `start_session`
being called again for that meeting, which resets an existing record from
`complete` back to `processing`. -/
theorem Orch.session_status_monotone_except_restart :
    (∀ (store : Results.Store) (m pid : String),
        (Results.lookupResult store m pid).isSome →
          (Results.lookupSession store m).isSome) ∧
    (∀ (store : Results.Store) (m pid : String) (r : Results.LivenessResult),
        Results.lookupSession store m = none →
          Results.set_result store m pid r = store) ∧
    (∀ (s : Orch.OrchState) (op : Orch.OrchOp) (now : Nat) (m : String),
        Orch.stateOf s m = some "complete" →
        op ≠ Orch.OrchOp.start m →
        Orch.stateOf (Orch.applyOp s (op, now)) m = some "complete") ∧
    (∀ (s : Orch.OrchState) (m sid urls : String) (now : Nat)
        (st : Results.SessionStatus) (s' : Orch.OrchState),
        m ∉ s.sessions →
        Results.lookupSession s.store m = some st →
        Orch.start_session s m sid urls now = .started s' →
        Orch.stateOf s' m = some "processing") := by
  refine ⟨?_, ?_, ?_, ?_⟩
  · intro store m pid h
    rw [Results.lookupResult] at h
    cases hlk : Results.lookupSession store m
    · rw [hlk] at h; simp at h
    · simp
  · intro store m pid r h
    exact Results.updateSession_absent store m _ h
  · intro s op now m hcomplete hne
    cases op with
    | start m' =>
      have hm' : m' ≠ m := fun h => hne (by rw [h])
      show Orch.stateOf (match Orch.start_session s m' "" "" now with
        | .tooManySessions => s
        | .started s' => s') m = some "complete"
      by_cases hcap : s.maxSessions ≤ s.sessions.length
      · simp [Orch.start_session, hcap]
        exact hcomplete
      · by_cases hmem : m' ∈ s.sessions
        · simp [Orch.start_session, hcap, hmem]
          exact hcomplete
        · simp only [Orch.start_session, if_neg hcap, if_neg hmem]
          rw [Orch.stateOf] at hcomplete ⊢
          show (Results.lookupSession
            (Results.set_session_state
              (Results.create_session s.store m' now) m' "processing" now) m).map
                Results.SessionStatus.state = some "complete"
          rw [Results.lookup_state_set_session_state, if_neg hm',
            Results.lookup_create_session_other s.store m' now m hm']
          exact hcomplete
    | stop m' =>
      show Orch.stateOf (Orch.stop_session s m' now) m = some "complete"
      rw [Orch.stop_session]
      by_cases hmem : m' ∈ s.sessions
      · simp only [hmem, if_true]
        rw [Orch.stateOf] at hcomplete ⊢
        show (Results.lookupSession
          (Results.set_session_state s.store m' "complete" now) m).map
            Results.SessionStatus.state = some "complete"
        rw [Results.lookup_state_set_session_state]
        by_cases hm' : m' = m
        · cases hlk : Results.lookupSession s.store m
          · rw [hlk] at hcomplete; simp at hcomplete
          · simp [hm', hlk]
        · simpa [hm'] using hcomplete
      · simp only [hmem, if_false]
        exact hcomplete
    | shutdown =>
      show Orch.stateOf (Orch.closeAll s now) m = some "complete"
      rw [Orch.stateOf] at hcomplete ⊢
      exact Results.fold_complete_preserves s.sessions s.store m now hcomplete
    | storeResult m' pid r =>
      show Orch.stateOf
        { s with store := Results.set_result s.store m' pid r } m = some "complete"
      rw [Orch.stateOf] at hcomplete ⊢
      show (Results.lookupSession (Results.set_result s.store m' pid r) m).map
        Results.SessionStatus.state = some "complete"
      rw [Results.lookup_state_set_result]
      exact hcomplete
  · intro s m sid urls now st s' hnotmem hlk hstart
    by_cases hcap : s.maxSessions ≤ s.sessions.length
    · simp [Orch.start_session, hcap] at hstart
    · simp only [Orch.start_session, if_neg hcap, if_neg hnotmem,
        Orch.StartResult.started.injEq] at hstart
      subst hstart
      rw [Orch.stateOf]
      show (Results.lookupSession
        (Results.set_session_state
          (Results.create_session s.store m now) m "processing" now) m).map
            Results.SessionStatus.state = some "processing"
      have hcreate : Results.create_session s.store m now = s.store := by
        simp [Results.create_session, hlk]
      rw [hcreate, Results.lookup_state_set_session_state, if_pos rfl, hlk]
      rfl

/-- Concrete run of the amended C2: a result implies its record; attaching
to a missing record is a no-op; `complete` survives every operation other
than a restart; and a restart of the stopped meeting sets `processing`. -/
theorem Orch.session_status_monotone_except_restart_witness :
    (Results.lookupSession Demo.demoStoreR "mtg").isSome ∧
    Results.set_result Demo.demoStore "nope" "p1" Demo.demoResult = Demo.demoStore ∧
    Orch.stateOf (Orch.applyOp Demo.orchStopped (.stop "other", 5)) "mtg" =
      some "complete" ∧
    Orch.stateOf
        ⟨["mtg"],
          [("mtg", ⟨"mtg", "processing", [], 0, some 1⟩)], 1⟩ "mtg" =
      some "processing" :=
  ⟨Orch.session_status_monotone_except_restart.1 Demo.demoStoreR "mtg" "p1" (by decide),
   Orch.session_status_monotone_except_restart.2.1 Demo.demoStore "nope" "p1"
     Demo.demoResult (by decide),
   Orch.session_status_monotone_except_restart.2.2.1 Demo.orchStopped (.stop "other")
     5 "mtg" (by decide) (by decide),
   Orch.session_status_monotone_except_restart.2.2.2 Demo.orchStopped "mtg" "s" "u"
     2 ⟨"mtg", "complete", [], 0, some 1⟩
     ⟨["mtg"], [("mtg", ⟨"mtg", "processing", [], 0, some 1⟩)], 1⟩
     (by decide) (by decide) (by decide)⟩

/-! ## C6 — insufficient crops store a terminal error result -/

theorem Results.find_upsert (l : List (String × Results.LivenessResult))
    (pid : String) (r : Results.LivenessResult) :
    ((Results.upsertResult l pid r).find? fun p => p.1 = pid).map Prod.snd =
      some r := by
  induction l with
  | nil => simp [Results.upsertResult, List.find?_cons]
  | cons p rest ih =>
    by_cases hp : p.1 = pid
    · simp [Results.upsertResult, List.any_cons, hp, List.find?_cons]
    · by_cases hr : rest.any fun q => q.1 = pid
      · simpa [Results.upsertResult, List.any_cons, hp, hr, List.find?_cons]
          using ih
      · simpa [Results.upsertResult, List.any_cons, hp, hr, List.find?_cons]
          using ih

theorem Results.lookupResult_set_result_self (store : Results.Store)
    (m pid : String) (r : Results.LivenessResult) (st : Results.SessionStatus)
    (h : Results.lookupSession store m = some st) :
    Results.lookupResult (Results.set_result store m pid r) m pid = some r := by
  rw [Results.lookupResult, Results.set_result,
    Results.lookupSession_updateSession, if_pos rfl, h]
  exact Results.find_upsert st.participants pid r

/-- C6: whenever the crop-collection loop exits with fewer than 10
accepted crops (frame-wait timeout or end-of-stream sentinel), the
pipeline stores, for that (meeting, participant), a result with verdict
`"error"`, error detail `"insufficient_frames"`, and `frames_processed`
equal to the number of frames actually pulled from the queue — and the
verification API is never called. -/
theorem Orch.insufficient_crops_stores_error
    {α : Type} (quality : α → Bool) (detect : α → Option String)
    (meeting pid : String) (events : List (Orch.PullEvent α))
    (api : Orch.ApiOutcome) (pms now : Nat)
    (n : Nat) (crops : List String)
    (hcollect : Orch.collectCrops quality detect events 0 [] = some (n, crops))
    (hfew : crops.length < Orch.MIN_CROPS) :
    ∃ run : Orch.PipelineRun,
      Orch.processParticipant quality detect meeting pid events api pms now =
        some run ∧
      run.stored = Orch.mkErrorResult meeting pid "insufficient_frames" n pms now ∧
      run.stored.verdict = "error" ∧
      run.stored.frames_processed = n ∧
      run.apiCalled = false ∧
      (∀ (store : Results.Store) (st : Results.SessionStatus),
        Results.lookupSession store meeting = some st →
        Results.lookupResult (Results.set_result store meeting pid run.stored)
          meeting pid = some run.stored) := by
  refine ⟨⟨Orch.mkErrorResult meeting pid "insufficient_frames" n pms now, false⟩,
    ?_, rfl, rfl, rfl, rfl, ?_⟩
  · rw [Orch.processParticipant, hcollect]
    simp [hfew]
  · intro store st h
    exact Results.lookupResult_set_result_self store meeting pid _ st h

/-- Concrete run of C6: two frames then a timeout — the pipeline stores an
`"error"` result with `frames_processed = 2` and never calls the API. -/
theorem Orch.insufficient_crops_stores_error_witness :
    ∃ run : Orch.PipelineRun,
      Orch.processParticipant (fun _ : Nat => true) (fun _ => some "crop")
          "mtg" "p1" [.frame 1, .frame 2, .timeout]
          (.apiError "unused") 40 9 = some run ∧
      run.stored = Orch.mkErrorResult "mtg" "p1" "insufficient_frames" 2 40 9 ∧
      run.stored.verdict = "error" ∧
      run.stored.frames_processed = 2 ∧
      run.apiCalled = false ∧
      (∀ (store : Results.Store) (st : Results.SessionStatus),
        Results.lookupSession store "mtg" = some st →
        Results.lookupResult (Results.set_result store "mtg" "p1" run.stored)
          "mtg" "p1" = some run.stored) :=
  Orch.insufficient_crops_stores_error (fun _ : Nat => true) (fun _ => some "crop")
    "mtg" "p1" [.frame 1, .frame 2, .timeout] (.apiError "unused") 40 9
    2 ["crop", "crop"] (by decide) (by decide)

/-! ## C4 — verification client retry machine -/

theorem Moveris.runAttempts_exhausted (script : List Moveris.HttpAttempt)
    (ws : List ℚ) (e : Moveris.CheckError) :
    Moveris.runAttempts script Moveris.MAX_ATTEMPTS ws (some e) =
      some ⟨.err e, ws, Moveris.MAX_ATTEMPTS⟩ := by
  rw [Moveris.runAttempts]
  simp [Moveris.MAX_ATTEMPTS]

theorem Moveris.runAttempts_step (script : List Moveris.HttpAttempt)
    (a : Nat) (ws : List ℚ) (l : Option Moveris.CheckError)
    (att : Moveris.HttpAttempt) (e : Moveris.CheckError)
    (ha : a < Moveris.MAX_ATTEMPTS)
    (hget : script.get? a = some att)
    (herr : Moveris.retryErr att = some e) :
    ∃ ws', Moveris.runAttempts script a ws l =
      Moveris.runAttempts script (a + 1) (ws ++ ws') (some e) := by
  have hget' : script[a]? = some att := by simpa using hget
  cases att with
  | success body => simp [Moveris.retryErr] at herr
  | transportError =>
    simp only [Moveris.retryErr, Option.some.injEq] at herr
    subst herr
    by_cases hlast : a < Moveris.MAX_ATTEMPTS - 1
    · refine ⟨[Moveris.RETRY_DELAYS.getD a 0], ?_⟩
      rw [Moveris.runAttempts]
      simp [ha, hget', hlast, List.getD]
    · refine ⟨[], ?_⟩
      rw [Moveris.runAttempts]
      simp [ha, hget', hlast]
  | httpError status rA =>
    simp only [Moveris.retryErr] at herr
    by_cases hnr : Moveris.nonRetryableStatus status
    · simp [hnr] at herr
    · rw [if_neg hnr] at herr
      rw [Option.some.injEq] at herr
      subst herr
      by_cases h429 : status = 429
      · subst h429
        refine ⟨[rA.getD (Moveris.RETRY_DELAYS.getD
          (min a (Moveris.RETRY_DELAYS.length - 1)) 0)], ?_⟩
        rw [Moveris.runAttempts]
        have hnr' : Moveris.nonRetryableStatus 429 = false := by decide
        simp [ha, hget', hnr', List.getD]
      · by_cases hlast : a < Moveris.MAX_ATTEMPTS - 1
        · refine ⟨[Moveris.RETRY_DELAYS.getD a 0], ?_⟩
          rw [Moveris.runAttempts]
          simp [ha, hget', hnr, h429, hlast, List.getD]
        · refine ⟨[], ?_⟩
          rw [Moveris.runAttempts]
          simp [ha, hget', hnr, h429, hlast]

theorem Moveris.runAttempts_attempts_le (fuel : Nat) :
    ∀ (a : Nat) (script : List Moveris.HttpAttempt) (ws : List ℚ)
      (l : Option Moveris.CheckError) (o : Moveris.CheckOutcome),
      a ≤ Moveris.MAX_ATTEMPTS → Moveris.MAX_ATTEMPTS - a ≤ fuel →
      Moveris.runAttempts script a ws l = some o →
      o.attempts ≤ Moveris.MAX_ATTEMPTS := by
  induction fuel with
  | zero =>
    intro a script ws l o ha hf h
    have ha3 : a = Moveris.MAX_ATTEMPTS := by omega
    subst ha3
    rw [Moveris.runAttempts, dif_neg (lt_irrefl Moveris.MAX_ATTEMPTS)] at h
    cases h
    exact le_rfl
  | succ f ih =>
    intro a script ws l o ha hf h
    by_cases hlt : a < Moveris.MAX_ATTEMPTS
    · rw [Moveris.runAttempts, dif_pos hlt] at h
      split at h
      · exact absurd h (by simp)
      · cases h
        exact hlt
      · split at h
        · cases h
          exact hlt
        · split at h
          · exact ih (a + 1) script _ _ o (by omega) (by omega) h
          · split at h
            · exact ih (a + 1) script _ _ o (by omega) (by omega) h
            · exact ih (a + 1) script _ _ o (by omega) (by omega) h
      · split at h
        · exact ih (a + 1) script _ _ o (by omega) (by omega) h
        · exact ih (a + 1) script _ _ o (by omega) (by omega) h
    · have ha3 : a = Moveris.MAX_ATTEMPTS := by omega
      subst ha3
      rw [Moveris.runAttempts, dif_neg (lt_irrefl Moveris.MAX_ATTEMPTS)] at h
      cases h
      exact le_rfl

/-- C4: with exactly 10 crops, `check_crops` makes at most 3 attempts; a
401/402/422 response raises immediately with the originating status code,
no wait and no further attempt; a 429 waits the server-supplied
`retry_after` when present, else the 1s-then-2s default schedule, then
retries; 5xx and transport failures retry on the 1s-then-2s backoff;
three retryable failures raise the last error; and 500, 500, 200 succeeds
after exactly the waits 1s and 2s with the parsed final response. -/
theorem Moveris.check_crops_retry_spec :
    (∀ (imgs : List String) (script : List Moveris.HttpAttempt)
        (o : Moveris.CheckOutcome),
        Moveris.checkCrops imgs script = some (.run o) → o.attempts ≤ 3) ∧
    (∀ (script : List Moveris.HttpAttempt) (a : Nat) (ws : List ℚ)
        (l : Option Moveris.CheckError) (status : Nat) (rA : Option ℚ),
        a < 3 → Moveris.nonRetryableStatus status = true →
        script.get? a = some (.httpError status rA) →
        Moveris.runAttempts script a ws l =
          some ⟨.err (.nonRetryable status), ws, a + 1⟩) ∧
    (∀ (imgs : List String) (w : ℚ) (body : Moveris.ResponseBody),
        imgs.length = 10 →
        Moveris.checkCrops imgs [.httpError 429 (some w), .success body] =
          some (.run ⟨.ok (Moveris.parseResponse body), [w], 2⟩)) ∧
    (∀ (imgs : List String) (body : Moveris.ResponseBody),
        imgs.length = 10 →
        Moveris.checkCrops imgs
            [.httpError 429 none, .httpError 429 none, .success body] =
          some (.run ⟨.ok (Moveris.parseResponse body), [1, 2], 3⟩)) ∧
    (∀ (imgs : List String) (body : Moveris.ResponseBody),
        imgs.length = 10 →
        Moveris.checkCrops imgs
            [.httpError 500 none, .transportError, .success body] =
          some (.run ⟨.ok (Moveris.parseResponse body), [1, 2], 3⟩)) ∧
    (∀ (script : List Moveris.HttpAttempt) (a0 a1 a2 : Moveris.HttpAttempt)
        (e0 e1 e2 : Moveris.CheckError),
        script.get? 0 = some a0 → Moveris.retryErr a0 = some e0 →
        script.get? 1 = some a1 → Moveris.retryErr a1 = some e1 →
        script.get? 2 = some a2 → Moveris.retryErr a2 = some e2 →
        ∃ ws, Moveris.runAttempts script 0 [] none = some ⟨.err e2, ws, 3⟩) ∧
    (∀ (imgs : List String) (body : Moveris.ResponseBody),
        imgs.length = 10 →
        Moveris.checkCrops imgs
            [.httpError 500 none, .httpError 500 none, .success body] =
          some (.run ⟨.ok (Moveris.parseResponse body), [1, 2], 3⟩)) := by
  refine ⟨?_, ?_, ?_, ?_, ?_, ?_, ?_⟩
  · intro imgs script o h
    rw [Moveris.checkCrops] at h
    by_cases hlen : imgs.length ≠ Moveris.REQUIRED_FRAMES
    · simp [hlen] at h
    · rw [if_neg hlen, Option.map_eq_some'] at h
      obtain ⟨o', ho', heq⟩ := h
      cases heq
      exact Moveris.runAttempts_attempts_le 3 0 script [] none o (by decide)
        (by decide) ho'
  · intro script a ws l status rA ha hnr hget
    have ha' : a < Moveris.MAX_ATTEMPTS := ha
    have hget' : script[a]? = some (Moveris.HttpAttempt.httpError status rA) := by
      simpa using hget
    rw [Moveris.runAttempts, dif_pos ha']
    simp [hget', hnr]
  · intro imgs w body h
    simp [Moveris.checkCrops, Moveris.runAttempts, Moveris.RETRY_DELAYS,
      Moveris.MAX_ATTEMPTS, Moveris.nonRetryableStatus, Moveris.REQUIRED_FRAMES, h]
  · intro imgs body h
    simp [Moveris.checkCrops, Moveris.runAttempts, Moveris.RETRY_DELAYS,
      Moveris.MAX_ATTEMPTS, Moveris.nonRetryableStatus, Moveris.REQUIRED_FRAMES, h]
  · intro imgs body h
    simp [Moveris.checkCrops, Moveris.runAttempts, Moveris.RETRY_DELAYS,
      Moveris.MAX_ATTEMPTS, Moveris.nonRetryableStatus, Moveris.REQUIRED_FRAMES, h]
  · intro script a0 a1 a2 e0 e1 e2 hg0 he0 hg1 he1 hg2 he2
    obtain ⟨w0, h0⟩ := Moveris.runAttempts_step script 0 [] none a0 e0
      (by simp [Moveris.MAX_ATTEMPTS]) hg0 he0
    obtain ⟨w1, h1⟩ := Moveris.runAttempts_step script 1 ([] ++ w0) (some e0) a1 e1
      (by simp [Moveris.MAX_ATTEMPTS]) hg1 he1
    obtain ⟨w2, h2⟩ := Moveris.runAttempts_step script 2 ([] ++ w0 ++ w1) (some e1)
      a2 e2 (by simp [Moveris.MAX_ATTEMPTS]) hg2 he2
    refine ⟨[] ++ w0 ++ w1 ++ w2, ?_⟩
    rw [h0, h1, h2]
    exact Moveris.runAttempts_exhausted script ([] ++ w0 ++ w1 ++ w2) e2
  · intro imgs body h
    simp [Moveris.checkCrops, Moveris.runAttempts, Moveris.RETRY_DELAYS,
      Moveris.MAX_ATTEMPTS, Moveris.nonRetryableStatus, Moveris.REQUIRED_FRAMES, h]

/-- Concrete runs of C4: the 500→500→200 trace with its two default
waits; a 401 raising at once with no wait; a 429 honouring the explicit
`retry_after`; three retryable failures surfacing the last error. -/
theorem Moveris.check_crops_retry_spec_witness :
    (Moveris.checkCrops Demo.tenCrops
        [.httpError 500 none, .httpError 500 none, .success Demo.demoBody] =
      some (.run ⟨.ok (Moveris.parseResponse Demo.demoBody), [1, 2], 3⟩)) ∧
    (Moveris.runAttempts [.httpError 401 none] 0 [] none =
      some ⟨.err (.nonRetryable 401), [], 1⟩) ∧
    (Moveris.checkCrops Demo.tenCrops
        [.httpError 429 (some 5), .success Demo.demoBody] =
      some (.run ⟨.ok (Moveris.parseResponse Demo.demoBody), [5], 2⟩)) ∧
    (∃ ws, Moveris.runAttempts
        [.httpError 500 none, .httpError 502 none, .transportError] 0 [] none =
      some ⟨.err .transport, ws, 3⟩) :=
  ⟨Moveris.check_crops_retry_spec.2.2.2.2.2.2 Demo.tenCrops Demo.demoBody (by decide),
   Moveris.check_crops_retry_spec.2.1 [.httpError 401 none] 0 [] none 401 none
     (by decide) (by decide) (by decide),
   Moveris.check_crops_retry_spec.2.2.1 Demo.tenCrops 5 Demo.demoBody (by decide),
   Moveris.check_crops_retry_spec.2.2.2.2.2.1
     [.httpError 500 none, .httpError 502 none, .transportError]
     (.httpError 500 none) (.httpError 502 none) .transportError
     (.httpStatus 500) (.httpStatus 502) .transport
     (by decide) (by decide) (by decide) (by decide) (by decide) (by decide)⟩

/-! ## C8 — decoder reader loop -/

theorem Decoder.readLine_append (l : List Nat) (rest : List Nat)
    (h : (10 : Nat) ∉ l) :
    Decoder.readLine (l ++ 10 :: rest) = (l ++ [10], rest) := by
  induction l with
  | nil => simp [Decoder.readLine]
  | cons b bs ih =>
    have hb : b ≠ 10 := fun hb => h (by simp [hb])
    have hbs : (10 : Nat) ∉ bs := fun hm => h (List.mem_cons_of_mem b hm)
    simp [Decoder.readLine, hb, ih hbs]

theorem Decoder.stripBytes_append_newline (l : List Nat) :
    Decoder.stripBytes (l ++ [10]) = Decoder.stripBytes l := by
  rw [Decoder.stripBytes, Decoder.stripBytes, List.dropWhile_append]
  cases hd : l.dropWhile Decoder.isWs with
  | nil => simp [hd, Decoder.isWs]
  | cons b bs =>
    simp only [List.isEmpty_cons, Bool.false_eq_true, if_false]
    have hrev : ((b :: bs) ++ [10]).reverse = 10 :: (b :: bs).reverse := by simp
    rw [hrev]
    simp [Decoder.isWs]

theorem Decoder.parseDims_newline (l : List Nat) :
    Decoder.parseDims (l ++ [10]) = Decoder.parseDims l := by
  rw [Decoder.parseDims, Decoder.parseDims, Decoder.stripBytes_append_newline]

/-- C8: the reader loop parses one self-framing unit at a time — `P6`
magic, dimensions line, max-value line, then exactly `width*height*3`
payload bytes — reverses the channel axis of each pixel, and enqueues the
frame; a full bounded queue drops the newly decoded frame instead of
blocking; an empty read at the magic position terminates as clean EOF with
the queue intact; and a truncated payload terminates the loop as an
`IncompleteReadError` caught inside the reader, without raising past it. -/
theorem Decoder.read_frames_spec :
    (∀ (maxsize : Nat) (q : List Decoder.PPMFrame),
        Decoder.readFrames maxsize [] q = (q, .cleanEof)) ∧
    (∀ (maxsize w h : Nat) (dl ml payload rest : List Nat)
        (q : List Decoder.PPMFrame),
        (10 : Nat) ∉ dl → (10 : Nat) ∉ ml →
        Decoder.parseDims dl = some (w, h) →
        payload.length = w * h * 3 →
        Decoder.readFrames maxsize (Decoder.ppmUnit dl ml payload rest) q =
          Decoder.readFrames maxsize rest
            (Decoder.enqueueFrame maxsize q ⟨w, h, Decoder.rgbToBgr payload⟩)) ∧
    (∀ (maxsize : Nat) (q : List Decoder.PPMFrame) (f : Decoder.PPMFrame),
        0 < maxsize → maxsize ≤ q.length →
        Decoder.enqueueFrame maxsize q f = q) ∧
    (∀ (maxsize : Nat) (q : List Decoder.PPMFrame) (f : Decoder.PPMFrame),
        ¬(0 < maxsize ∧ maxsize ≤ q.length) →
        Decoder.enqueueFrame maxsize q f = q ++ [f]) ∧
    (∀ (maxsize w h : Nat) (dl ml payload : List Nat)
        (q : List Decoder.PPMFrame),
        (10 : Nat) ∉ dl → (10 : Nat) ∉ ml →
        Decoder.parseDims dl = some (w, h) →
        payload.length < w * h * 3 →
        Decoder.readFrames maxsize (Decoder.ppmUnit dl ml payload []) q =
          (q, .incompleteRead)) := by
  refine ⟨?_, ?_, ?_, ?_, ?_⟩
  · intro maxsize q
    simp [Decoder.readFrames]
  · intro maxsize w h dl ml payload rest q hdl hml hdim hlen
    have hl1 : Decoder.readLine
        (80 :: 54 :: 10 :: (dl ++ 10 :: (ml ++ 10 :: (payload ++ rest)))) =
        ([80, 54, 10], dl ++ 10 :: (ml ++ 10 :: (payload ++ rest))) := by
      simp [Decoder.readLine]
    have hl2 := Decoder.readLine_append dl (ml ++ 10 :: (payload ++ rest)) hdl
    have hl3 := Decoder.readLine_append ml (payload ++ rest) hml
    have hdim2 : Decoder.parseDims (dl ++ [10]) = some (w, h) := by
      rw [Decoder.parseDims_newline]
      exact hdim
    have hmagic : Decoder.stripBytes [80, 54, 10] = [80, 54] := by decide
    have hnot : ¬((payload ++ rest).length < w * h * 3) := by
      rw [List.length_append, hlen]
      omega
    have htake : (payload ++ rest).take (w * h * 3) = payload := by
      rw [← hlen]
      exact List.take_left _ _
    have hdrop : (payload ++ rest).drop (w * h * 3) = rest := by
      rw [← hlen]
      exact List.drop_left _ _
    rw [Decoder.ppmUnit]
    simp only [Decoder.readFrames, hl1, hl2, hl3, hdim2, hmagic, hnot, htake,
      hdrop, if_false]
    simp
  · intro maxsize q f h1 h2
    simp [Decoder.enqueueFrame, h1, h2]
  · intro maxsize q f h
    simp [Decoder.enqueueFrame, h]
  · intro maxsize w h dl ml payload q hdl hml hdim hlen
    have hl1 : Decoder.readLine
        (80 :: 54 :: 10 :: (dl ++ 10 :: (ml ++ 10 :: (payload ++ [])))) =
        ([80, 54, 10], dl ++ 10 :: (ml ++ 10 :: (payload ++ []))) := by
      simp [Decoder.readLine]
    have hl2 := Decoder.readLine_append dl (ml ++ 10 :: (payload ++ [])) hdl
    have hl3 := Decoder.readLine_append ml (payload ++ []) hml
    have hdim2 : Decoder.parseDims (dl ++ [10]) = some (w, h) := by
      rw [Decoder.parseDims_newline]
      exact hdim
    have hmagic : Decoder.stripBytes [80, 54, 10] = [80, 54] := by decide
    have hcut : (payload ++ []).length < w * h * 3 := by
      simpa using hlen
    rw [Decoder.ppmUnit]
    simp only [Decoder.readFrames, hl1, hl2, hl3, hdim2, hmagic, hcut, if_true]
    simp

/-- Concrete run of C8: a 2×1 frame parses and lands in the queue with BGR
channel order; with a full size-1 queue the second frame is dropped; a
truncated second payload ends the loop as `incompleteRead`; empty input is
clean EOF. -/
theorem Decoder.read_frames_spec_witness :
    Decoder.readFrames 30 (Decoder.ppmUnit [50, 32, 49] [50, 53, 53] [1, 2, 3, 4, 5, 6] []) [] =
      ([⟨2, 1, [3, 2, 1, 6, 5, 4]⟩], .cleanEof) ∧
    Decoder.enqueueFrame 1 [⟨2, 1, [3, 2, 1, 6, 5, 4]⟩] ⟨2, 1, [9, 8, 7, 12, 11, 10]⟩ =
      [⟨2, 1, [3, 2, 1, 6, 5, 4]⟩] ∧
    Decoder.readFrames 30 (Decoder.ppmUnit [50, 32, 49] [50, 53, 53] [1, 2] []) [] =
      ([], .incompleteRead) ∧
    Decoder.readFrames 30 [] ([] : List Decoder.PPMFrame) = ([], .cleanEof) := by
  refine ⟨?_, ?_, ?_, ?_⟩
  · rw [Decoder.read_frames_spec.2.1 30 2 1 [50, 32, 49] [50, 53, 53]
      [1, 2, 3, 4, 5, 6] [] [] (by decide) (by decide) (by decide) (by decide),
      Decoder.read_frames_spec.1]
    decide
  · exact Decoder.read_frames_spec.2.2.1 1 [⟨2, 1, [3, 2, 1, 6, 5, 4]⟩]
      ⟨2, 1, [9, 8, 7, 12, 11, 10]⟩ (by decide) (by decide)
  · exact Decoder.read_frames_spec.2.2.2.2 30 2 1 [50, 32, 49] [50, 53, 53]
      [1, 2] [] (by decide) (by decide) (by decide) (by decide)
  · exact Decoder.read_frames_spec.1 30 []
